import Mathlib

/-!
Verification of the ECS (Entity-Component-System) core of
tylersuehr7/ecs-game-architecture against its specification.

The embedding is a shallow one over the four core headers
(`component.hpp`, `entity.hpp`, `system.hpp`, `world.hpp`):

* `std::unordered_map` registries (components by `type_index`, entities by
  `EntityID`, systems by `type_index`) are modelled as association lists
  keyed by `Nat`; list order stands for the map's (unspecified) iteration
  order, and the maps' key-uniqueness is carried as `Nodup` hypotheses on
  the key lists where a theorem needs it.
* `EntityID` is `std::uint64_t`; the one place the code does arithmetic on
  it (the post-increment of `next_entity_id_` in `System::add_entity`) is
  modelled with an explicit `% 2 ^ 64`.
* concrete component types hold payload fields initialised from forwarded
  constructor arguments; a payload is modelled as a `List Int` and the
  `type_index` of the concrete type as the `Nat` key.
* the virtual lifecycle hooks of concrete `System` subclasses are opaque to
  the core; a system carries the value its overridden `initialize()`
  returns (`initResult`) and instrumentation counters, and the `World`
  operations additionally emit the list of hook invocations (`Event`s)
  they perform, so that "calls `initialize()` on every system", "stops at
  the first failure" and "never invokes `shutdown`" are statable.
* `tick`'s `float delta` is never computed on by the core (it is passed
  through verbatim), so it is modelled by an opaque scalar type `Delta`.

The repository snapshot contains two revisions of `system.hpp`: an older
one (no doc comments, `void remove_entity`) and the current documented one
(`bool remove_entity(const EntityID) noexcept`, matching the repository's
usage guide and `README`).  The documented current revision is the one
embedded here.
-/

set_option autoImplicit false

namespace GameEcs

/-- Identifier of an entity (`EntityID = std::uint64_t` in `entity.hpp`). -/
abbrev EntityID := Nat

/-- Number of values of `std::uint64_t`; `next_entity_id_` wraps modulo this. -/
def uint64Card : Nat := 2 ^ 64

/-- The `float delta` value handed to `tick`.  The core never computes on it
(it is passed through verbatim to each system's `tick`), so an opaque
integer scalar stands in for it. -/
abbrev Delta := Int

/-- Lookup in an association list, mirroring `unordered_map::find`. -/
def mapFind {α : Type} (k : Nat) : List (Nat × α) → Option α
  | [] => none
  | (k2, v) :: rest => if k2 = k then some v else mapFind k rest

/-- Erasure of the found entry, mirroring `unordered_map::erase(it)`. -/
def mapErase {α : Type} (k : Nat) : List (Nat × α) → List (Nat × α)
  | [] => []
  | (k2, v) :: rest => if k2 = k then rest else (k2, v) :: mapErase k rest

/-- Insertion mirroring `unordered_map::emplace`: a no-op when the key is
already present. -/
def mapEmplace {α : Type} (k : Nat) (v : α) (l : List (Nat × α)) : List (Nat × α) :=
  if (mapFind k l).isSome then l else (k, v) :: l

/-- Number of entries stored under key `k`. -/
def countKey {α : Type} (k : Nat) (l : List (Nat × α)) : Nat :=
  l.countP (fun p => p.1 == k)

/-- A component (`struct Component` in `component.hpp`): an owner
back-reference, null before attachment, plus the payload fields of the
concrete component type. -/
structure Component where
  payload : List Int
  owner : Option EntityID
  deriving DecidableEq

/-- Construction of a concrete component from forwarded constructor
arguments (`std::make_unique<T>(std::forward<Args>(args)...)`); the base
class initialises `owner` to `nullptr`. -/
def mkComponent (args : List Int) : Component :=
  { payload := args, owner := none }

/-- An entity (`class Entity` in `entity.hpp`): an immutable identifier and
the type-keyed component mapping `components_`. -/
structure Entity where
  id_ : EntityID
  components_ : List (Nat × Component)
  deriving DecidableEq

/-- The constructor `explicit Entity(const EntityID id)`: stores the id,
the component mapping starts empty. -/
def mkEntity (id : EntityID) : Entity :=
  { id_ := id, components_ := [] }

/-- `Entity::get_component<T>()`: find by the concrete type's key, null if
absent. -/
def Entity.get_component (e : Entity) (t : Nat) : Option Component :=
  mapFind t e.components_

/-- `Entity::has_component<T>()`: `find != end`. -/
def Entity.has_component (e : Entity) (t : Nat) : Bool :=
  (mapFind t e.components_).isSome

/-- `Entity::add_component<T>(args...)`: fails with null if a `T` is
already present; otherwise constructs the component, sets its `owner` to
this entity, emplaces it and returns the stored instance. -/
def Entity.add_component (e : Entity) (t : Nat) (args : List Int) : Option Component × Entity :=
  if (mapFind t e.components_).isSome then
    (none, e)
  else
    let c := { mkComponent args with owner := some e.id_ }
    (some c, { e with components_ := mapEmplace t c e.components_ })

/-- `Entity::remove_component<T>()`: false and no effect if absent;
otherwise clears the found component's `owner` back-reference, erases the
entry (destroying the component) and returns true.  The middle output is
the removed component as it stands at destruction time (owner already
cleared), `none` when nothing was removed. -/
def Entity.remove_component (e : Entity) (t : Nat) : Bool × Option Component × Entity :=
  match mapFind t e.components_ with
  | none => (false, none, e)
  | some c =>
    (true, some { c with owner := none },
     { e with components_ := mapErase t e.components_ })

/-- A system (`class System` in `system.hpp`): the base-class state is the
monotonic id counter `next_entity_id_` (starting at 1) and the entity
registry `entities_`.  The behaviour of the concrete subclass's virtual
hooks is opaque to the core; `initResult` is the value its overridden
`initialize()` returns, and `initCount` / `tickCount` record how many
times the world has invoked the respective hook on it. -/
structure System where
  next_entity_id_ : EntityID
  entities_ : List (EntityID × Entity)
  initResult : Bool
  initCount : Nat
  tickCount : Nat
  deriving DecidableEq

/-- A freshly constructed system: counter at 1, no entities, no hook
invocations yet; `b` is what its `initialize()` override will return. -/
def mkSystem (b : Bool) : System :=
  { next_entity_id_ := 1, entities_ := [], initResult := b,
    initCount := 0, tickCount := 0 }

/-- `System::has_entity(id)`: `find != end`. -/
def System.has_entity (s : System) (id : EntityID) : Bool :=
  (mapFind id s.entities_).isSome

/-- `System::get_entity(id)`: lookup, null if absent. -/
def System.get_entity (s : System) (id : EntityID) : Option Entity :=
  mapFind id s.entities_

/-- `System::add_entity()`: reads the counter (post-increment of a
`uint64_t`, hence the `% 2 ^ 64` on the stored successor), constructs an
empty entity with that id, emplaces it and returns it. -/
def System.add_entity (s : System) : Entity × System :=
  let new_entity_id := s.next_entity_id_
  let e := mkEntity new_entity_id
  (e, { s with next_entity_id_ := (new_entity_id + 1) % uint64Card,
               entities_ := mapEmplace new_entity_id e s.entities_ })

/-- `System::remove_entity(id)` (current documented revision, returning
`bool`): false if the id is absent, otherwise erases the entry (destroying
the entity and its components) and returns true. -/
def System.remove_entity (s : System) (id : EntityID) : Bool × System :=
  match mapFind id s.entities_ with
  | none => (false, s)
  | some _ => (true, { s with entities_ := mapErase id s.entities_ })

/-- A lifecycle-hook invocation performed by the `World` on a registered
system, identified by the system's type key. -/
inductive Event where
  | init (key : Nat) (result : Bool)
  | tick (key : Nat) (delta : Delta)
  | shutdown (key : Nat)
  deriving DecidableEq

/-- The world (`class World` in `world.hpp`): the type-keyed system
registry `systems_`. -/
structure World where
  systems_ : List (Nat × System)
  deriving DecidableEq

/-- Invocation of `system->initialize()`: returns the override's answer
and bumps the instrumentation counter. -/
def sysInitialise (s : System) : Bool × System :=
  (s.initResult, { s with initCount := s.initCount + 1 })

/-- Invocation of `system->tick(delta)` (effect on the system object). -/
def sysTick (s : System) : System :=
  { s with tickCount := s.tickCount + 1 }

/-- The loop body of `World::initialize`: call `initialize()` on each
system in iteration order, breaking out at the first one that returns
false.  Returns the overall flag, the registry after the loop, and the
hook invocations performed. -/
def initSystems : List (Nat × System) → Bool × List (Nat × System) × List Event
  | [] => (true, [], [])
  | (k, s) :: rest =>
    let (r, s2) := sysInitialise s
    if r then
      let (b, rest2, evs) := initSystems rest
      (b, (k, s2) :: rest2, Event.init k true :: evs)
    else
      (false, (k, s2) :: rest, [Event.init k false])

/-- `World::initialize()`. -/
def World.initialise (w : World) : Bool × World × List Event :=
  let (b, l, evs) := initSystems w.systems_
  (b, { systems_ := l }, evs)

/-- `World::tick(delta)`: calls `tick(delta)` on every system,
unconditionally, once per call. -/
def World.tick (w : World) (d : Delta) : World × List Event :=
  ({ systems_ := w.systems_.map (fun p => (p.1, sysTick p.2)) },
   w.systems_.map (fun p => Event.tick p.1 d))

/-- `World::shutdown()`: calls `shutdown()` on every system, then clears
the registry. -/
def World.shutdown (w : World) : World × List Event :=
  ({ systems_ := [] }, w.systems_.map (fun p => Event.shutdown p.1))

/-- `World::has_system<T>()`: `find != end`. -/
def World.has_system (w : World) (k : Nat) : Bool :=
  (mapFind k w.systems_).isSome

/-- `World::get_system<T>()`: lookup by type key, null if absent. -/
def World.get_system (w : World) (k : Nat) : Option System :=
  mapFind k w.systems_

/-- `World::add_system<T>(args...)`: fails with null if a system of that
type is already registered; otherwise constructs, emplaces and returns the
stored instance. -/
def World.add_system (w : World) (k : Nat) (s : System) : Option System × World :=
  if (mapFind k w.systems_).isSome then
    (none, w)
  else
    (some s, { systems_ := mapEmplace k s w.systems_ })

/-- `World::remove_system<T>()`: false if absent; otherwise invokes the
system's `shutdown()` and erases it from the registry. -/
def World.remove_system (w : World) (k : Nat) : Bool × World × List Event :=
  match mapFind k w.systems_ with
  | none => (false, w, [])
  | some _ => (true, { systems_ := mapErase k w.systems_ }, [Event.shutdown k])

/-! ### Helper lemmas about the association-list registries -/

theorem mapFind_eq_none_of_not_mem {α : Type} {k : Nat} {l : List (Nat × α)}
    (h : k ∉ l.map Prod.fst) : mapFind k l = none := by
  induction l with
  | nil => rfl
  | cons p rest ih =>
    obtain ⟨k2, v⟩ := p
    simp only [List.map_cons, List.mem_cons] at h
    push_neg at h
    rw [mapFind, if_neg (fun hk => h.1 hk.symm)]
    exact ih h.2

theorem mapFind_mapErase_self {α : Type} {k : Nat} {l : List (Nat × α)}
    (h : (l.map Prod.fst).Nodup) : mapFind k (mapErase k l) = none := by
  induction l with
  | nil => rfl
  | cons p rest ih =>
    obtain ⟨k2, v⟩ := p
    simp only [List.map_cons, List.nodup_cons] at h
    by_cases hk : k2 = k
    · subst hk
      rw [mapErase, if_pos rfl]
      exact mapFind_eq_none_of_not_mem h.1
    · rw [mapErase, if_neg hk, mapFind, if_neg hk]
      exact ih h.2

theorem mapFind_mapErase_ne {α : Type} {j k : Nat} (hjk : j ≠ k) (l : List (Nat × α)) :
    mapFind j (mapErase k l) = mapFind j l := by
  induction l with
  | nil => rfl
  | cons p rest ih =>
    obtain ⟨k2, v⟩ := p
    by_cases hk : k2 = k
    · subst hk
      rw [mapErase, if_pos rfl, mapFind, if_neg (fun h => hjk h.symm)]
    · by_cases hj : k2 = j <;>
        simp [mapErase, mapFind, hj, hjk, hk, ih]

theorem countKey_eq_zero_of_not_mem {α : Type} {k : Nat} {l : List (Nat × α)}
    (h : k ∉ l.map Prod.fst) : countKey k l = 0 := by
  induction l with
  | nil => rfl
  | cons p rest ih =>
    obtain ⟨k2, v⟩ := p
    simp only [List.map_cons, List.mem_cons] at h
    push_neg at h
    have hne : (k2 == k) = false := by
      simp [beq_iff_eq]
      exact fun hk => h.1 hk.symm
    simp only [countKey, List.countP_cons, hne, if_false]
    exact ih h.2

theorem countKey_eq_one_of_found {α : Type} {k : Nat} {l : List (Nat × α)}
    (hnd : (l.map Prod.fst).Nodup) (h : (mapFind k l).isSome = true) :
    countKey k l = 1 := by
  induction l with
  | nil => simp [mapFind] at h
  | cons p rest ih =>
    obtain ⟨k2, v⟩ := p
    simp only [List.map_cons, List.nodup_cons] at hnd
    by_cases hk : k2 = k
    · subst hk
      have h0 : countKey k2 rest = 0 := countKey_eq_zero_of_not_mem hnd.1
      simp only [countKey] at h0 ⊢
      simp [List.countP_cons, h0]
    · rw [mapFind, if_neg hk] at h
      have hne : (k2 == k) = false := by
        simp [beq_iff_eq]; exact hk
      simp only [countKey, List.countP_cons, hne, if_false]
      exact ih hnd.2 h

/-! ### Claim theorems -/

/-- C9: presence/lookup coherence at the registry level: for every system
state and identifier, `System::has_entity(id)` answers true exactly when
`System::get_entity(id)` returns non-null, and for every world state and
concrete system type, `World::has_system<T>()` answers true exactly when
`World::get_system<T>()` returns non-null. -/
theorem presence_lookup_coherence (s : System) (id : EntityID) (w : World) (k : Nat) :
    s.has_entity id = (s.get_entity id).isSome
    ∧ w.has_system k = (w.get_system k).isSome :=
  ⟨rfl, rfl⟩

/-- C7: `World::shutdown` calls `shutdown()` on every registered system
(one `Event.shutdown` per registry entry, in iteration order) and then
clears the registry; it is idempotent: a second call is a no-op over an
empty registry, producing the same observable state (empty registry) and
invoking no hooks. -/
theorem world_shutdown_idempotent (w : World) :
    ((w.shutdown).1).systems_ = []
    ∧ (w.shutdown).2 = w.systems_.map (fun p => Event.shutdown p.1)
    ∧ (w.shutdown).1.shutdown = ((w.shutdown).1, []) :=
  ⟨rfl, rfl, rfl⟩

/-- C10: for a world with no registered systems, `World::initialize`
returns true (vacuous success), and `World::tick(delta)` terminates
without invoking any system hook and without changing the world's state,
for every delta value. -/
theorem empty_world_lifecycle (w : World) (h : w.systems_ = []) :
    w.initialise = (true, w, []) ∧ ∀ d : Delta, w.tick d = (w, []) := by
  obtain ⟨l⟩ := w
  have hl : l = [] := h
  subst hl
  exact ⟨rfl, fun d => rfl⟩

/-- Witness for `empty_world_lifecycle` at the concrete empty world. -/
theorem empty_world_lifecycle_witness :
    (({ systems_ := [] } : World).systems_ = [])
    ∧ ({ systems_ := [] } : World).initialise = (true, { systems_ := [] }, [])
    ∧ ({ systems_ := [] } : World).tick 3 = ({ systems_ := [] }, []) := by
  refine ⟨rfl, ?_, ?_⟩
  · exact (empty_world_lifecycle { systems_ := [] } rfl).1
  · exact (empty_world_lifecycle { systems_ := [] } rfl).2 3

/-- C5: round-trip of component storage: on an entity not yet holding a
component of type `T`, `add_component<T>(args...)` returns the instance it
constructed — payload fields equal to the constructor arguments, owner set
to this entity — and an immediately following `get_component<T>()` returns
that same stored instance. -/
theorem add_get_roundtrip (e : Entity) (t : Nat) (args : List Int)
    (h : e.get_component t = none) :
    (e.add_component t args).1 = some { payload := args, owner := some e.id_ }
    ∧ ((e.add_component t args).2).get_component t = (e.add_component t args).1
    ∧ ((e.add_component t args).2).id_ = e.id_ := by
  have hf : mapFind t e.components_ = none := h
  simp [Entity.add_component, Entity.get_component, mkComponent, mapEmplace, mapFind, hf]

/-- Witness for `add_get_roundtrip` at a concrete entity and payload. -/
theorem add_get_roundtrip_witness :
    ((mkEntity 4).get_component 2 = none)
    ∧ ((mkEntity 4).add_component 2 [7, 9]).1
        = some { payload := [7, 9], owner := some 4 }
    ∧ (((mkEntity 4).add_component 2 [7, 9]).2).get_component 2
        = ((mkEntity 4).add_component 2 [7, 9]).1 := by
  have h := add_get_roundtrip (mkEntity 4) 2 [7, 9] (by decide)
  exact ⟨by decide, h.1, h.2.1⟩

/-- C1: `System::remove_entity(id)` returns a boolean: when an entity with
identifier `id` is present it destroys that entity (erasing the registry
entry, so that lookup of `id` reports absence afterwards) and returns
true, leaving every other registry entry and the id counter untouched;
when no such entity is present it returns false and leaves the registry
unchanged. -/
theorem remove_entity_spec (s : System) (id : EntityID) :
    (s.get_entity id = none → s.remove_entity id = (false, s))
    ∧ (∀ e, s.get_entity id = some e →
        (s.remove_entity id).1 = true
        ∧ ((s.entities_.map Prod.fst).Nodup →
            ((s.remove_entity id).2).get_entity id = none)
        ∧ (∀ j, j ≠ id → ((s.remove_entity id).2).get_entity j = s.get_entity j)
        ∧ ((s.remove_entity id).2).next_entity_id_ = s.next_entity_id_) := by
  constructor
  · intro h
    have hf : mapFind id s.entities_ = none := h
    simp [System.remove_entity, hf]
  · intro e he
    have hf : mapFind id s.entities_ = some e := he
    simp only [System.remove_entity, hf, System.get_entity]
    exact ⟨trivial, fun hnd => mapFind_mapErase_self hnd,
           fun j hj => mapFind_mapErase_ne hj _, trivial⟩

/-- Witness for `remove_entity_spec`: removing a present entity succeeds
and empties the lookup, removing an absent one fails with no effect. -/
theorem remove_entity_spec_witness :
    ((System.mk 5 [(1, mkEntity 1)] true 0 0).remove_entity 1).1 = true
    ∧ ((System.mk 5 [(1, mkEntity 1)] true 0 0).remove_entity 1).2.get_entity 1 = none
    ∧ (System.mk 5 [] true 0 0).remove_entity 2 = (false, System.mk 5 [] true 0 0) := by
  have h := (remove_entity_spec (System.mk 5 [(1, mkEntity 1)] true 0 0) 1).2
      (mkEntity 1) (by decide)
  exact ⟨h.1, h.2.1 (by decide), (remove_entity_spec (System.mk 5 [] true 0 0) 2).1 (by decide)⟩

/-- C3: duplicate registration fails with null and no mutation: on an
entity already holding a component of type `T`, `add_component<T>` returns
null and the entity (hence the existing instance and its field values) is
unchanged; on a world already holding a system of type `T`, `add_system<T>`
returns null, the world is unchanged, and the registry contains exactly
one entry of that type. -/
theorem duplicate_add_null :
    (∀ (e : Entity) (t : Nat) (args : List Int) (c : Component),
       e.get_component t = some c → e.add_component t args = (none, e))
    ∧ (∀ (w : World) (k : Nat) (s s0 : System),
       (w.systems_.map Prod.fst).Nodup → w.get_system k = some s0 →
         w.add_system k s = (none, w) ∧ countKey k w.systems_ = 1) := by
  constructor
  · intro e t args c hc
    have hf : mapFind t e.components_ = some c := hc
    simp [Entity.add_component, hf]
  · intro w k s s0 hnd hs
    have hf : mapFind k w.systems_ = some s0 := hs
    exact ⟨by simp [World.add_system, hf],
           countKey_eq_one_of_found hnd (by simp [hf])⟩

/-- Witness for `duplicate_add_null`: a second `add_component` of the same
type and a second `add_system` of the same type both fail with null and no
mutation. -/
theorem duplicate_add_null_witness :
    ((mkEntity 1).add_component 3 [5]).2.add_component 3 [6]
      = (none, ((mkEntity 1).add_component 3 [5]).2)
    ∧ World.add_system { systems_ := [(2, mkSystem true)] } 2 (mkSystem false)
      = (none, { systems_ := [(2, mkSystem true)] })
    ∧ countKey 2 ({ systems_ := [(2, mkSystem true)] } : World).systems_ = 1 := by
  have h2 := duplicate_add_null.2 { systems_ := [(2, mkSystem true)] } 2
      (mkSystem false) (mkSystem true) (by decide) (by decide)
  exact ⟨duplicate_add_null.1 _ 3 [6] { payload := [5], owner := some 1 } (by decide),
         h2.1, h2.2⟩

/-- C6: `Entity::remove_component<T>` on an absent type returns false and
leaves the component storage unchanged; on a present type it clears the
component's owner back-reference (the middle output is the component as
destroyed, owner already null), erases it and returns true, after which
`get_component<T>` returns null and `has_component<T>` returns false. -/
theorem remove_component_spec (e : Entity) (t : Nat) :
    (e.get_component t = none → e.remove_component t = (false, none, e))
    ∧ (∀ c, e.get_component t = some c →
        (e.remove_component t).1 = true
        ∧ (e.remove_component t).2.1 = some { c with owner := none }
        ∧ ((e.components_.map Prod.fst).Nodup →
            ((e.remove_component t).2.2).get_component t = none
            ∧ ((e.remove_component t).2.2).has_component t = false)) := by
  constructor
  · intro h
    have hf : mapFind t e.components_ = none := h
    simp [Entity.remove_component, hf]
  · intro c hc
    have hf : mapFind t e.components_ = some c := hc
    simp only [Entity.remove_component, hf, Entity.get_component, Entity.has_component]
    refine ⟨trivial, trivial, fun hnd => ?_⟩
    have h2 := mapFind_mapErase_self (k := t) hnd
    exact ⟨h2, by simp [h2]⟩

/-- Witness for `remove_component_spec`: removing a present component
succeeds with the owner back-reference cleared on the destroyed component;
removing an absent one fails with no effect. -/
theorem remove_component_spec_witness :
    (((mkEntity 2).add_component 5 [1, 2]).2.remove_component 5).1 = true
    ∧ (((mkEntity 2).add_component 5 [1, 2]).2.remove_component 5).2.1
      = some { payload := [1, 2], owner := none }
    ∧ (mkEntity 2).remove_component 9 = (false, none, mkEntity 2) := by
  have h := (remove_component_spec ((mkEntity 2).add_component 5 [1, 2]).2 5).2
      { payload := [1, 2], owner := some 2 } (by decide)
  exact ⟨h.1, h.2.1, (remove_component_spec (mkEntity 2) 9).1 (by decide)⟩

/-! ### Owner back-reference invariant (C8) -/

/-- The operations of the `Entity` interface, for stating the invariant
over arbitrary operation sequences. -/
inductive EntityOp where
  | addC (t : Nat) (args : List Int)
  | removeC (t : Nat)
  | getC (t : Nat)
  | hasC (t : Nat)
  deriving DecidableEq

/-- Effect of one `Entity` operation on the entity's state
(`get_component` and `has_component` are reads and leave it unchanged). -/
def applyEntityOp (e : Entity) : EntityOp → Entity
  | EntityOp.addC t args => (e.add_component t args).2
  | EntityOp.removeC t => (e.remove_component t).2.2
  | EntityOp.getC _ => e
  | EntityOp.hasC _ => e

/-- Effect of a sequence of `Entity` operations. -/
def applyEntityOps (e : Entity) : List EntityOp → Entity
  | [] => e
  | op :: rest => applyEntityOps (applyEntityOp e op) rest

/-- Owner back-reference invariant: every component currently stored in
the entity's mapping has its owner pointing at this entity. -/
def ownerInv (e : Entity) : Prop :=
  ∀ p ∈ e.components_, p.2.owner = some e.id_

theorem mem_mapErase {α : Type} {k : Nat} {p : Nat × α} {l : List (Nat × α)}
    (h : p ∈ mapErase k l) : p ∈ l := by
  induction l with
  | nil => simp [mapErase] at h
  | cons q rest ih =>
    obtain ⟨k2, v⟩ := q
    by_cases hk : k2 = k
    · subst hk
      rw [mapErase, if_pos rfl] at h
      exact List.mem_cons_of_mem _ h
    · rw [mapErase, if_neg hk] at h
      rcases List.mem_cons.mp h with h1 | h2
      · exact List.mem_cons.mpr (Or.inl h1)
      · exact List.mem_cons_of_mem _ (ih h2)

theorem ownerInv_applyEntityOp {e : Entity} (h : ownerInv e) (op : EntityOp) :
    ownerInv (applyEntityOp e op) := by
  cases op with
  | addC t args =>
    by_cases hf : (mapFind t e.components_).isSome
    · simpa [applyEntityOp, Entity.add_component, hf] using h
    · simp only [applyEntityOp, Entity.add_component, hf, if_false, mapEmplace,
                 Bool.false_eq_true]
      intro p hp
      rcases List.mem_cons.mp hp with h1 | h2
      · rw [h1]
      · exact h p h2
  | removeC t =>
    cases hf : mapFind t e.components_ with
    | none =>
      simp only [applyEntityOp, Entity.remove_component, hf]
      exact h
    | some c =>
      simp only [applyEntityOp, Entity.remove_component, hf]
      intro p hp
      exact h p (mem_mapErase hp)
  | getC t => exact h
  | hasC t => exact h

theorem ownerInv_applyEntityOps {e : Entity} (h : ownerInv e) (ops : List EntityOp) :
    ownerInv (applyEntityOps e ops) := by
  induction ops generalizing e with
  | nil => exact h
  | cons op rest ih => exact ih (ownerInv_applyEntityOp h op)

/-- C8: owner back-reference invariant: after every sequence of `Entity`
operations starting from a freshly constructed entity, every component
stored in its mapping has its owner back-reference pointing at that
entity; a component's owner is null before attachment (the base-class
constructor initialises it to null) and is cleared during removal, before
destruction. -/
theorem owner_backref_invariant :
    (∀ (id0 : EntityID) (ops : List EntityOp),
       ownerInv (applyEntityOps (mkEntity id0) ops))
    ∧ (∀ args : List Int, (mkComponent args).owner = none)
    ∧ (∀ (e : Entity) (t : Nat) (c : Component),
       (e.remove_component t).2.1 = some c → c.owner = none) := by
  refine ⟨?_, fun args => rfl, ?_⟩
  · intro id0 ops
    refine ownerInv_applyEntityOps ?_ ops
    intro p hp
    simp [mkEntity] at hp
  · intro e t c h
    unfold Entity.remove_component at h
    cases hf : mapFind t e.components_ with
    | none => rw [hf] at h; simp at h
    | some c2 =>
      rw [hf] at h
      simp only [Option.some.injEq] at h
      rw [← h]

/-- Witness for `owner_backref_invariant`: a concrete operation sequence
keeps the invariant, and a concrete removal hands back the component with
its owner cleared. -/
theorem owner_backref_invariant_witness :
    ownerInv (applyEntityOps (mkEntity 7)
      [EntityOp.addC 1 [5], EntityOp.removeC 1, EntityOp.addC 2 [9]])
    ∧ ({ payload := [3], owner := none } : Component).owner = none := by
  constructor
  · exact owner_backref_invariant.1 7
      [EntityOp.addC 1 [5], EntityOp.removeC 1, EntityOp.addC 2 [9]]
  · exact owner_backref_invariant.2.2 ((mkEntity 1).add_component 2 [3]).2 2
      { payload := [3], owner := none } (by decide)

/-! ### World initialization (C2) -/

/-- Specification, written from the spec's words, of the hook invocations
`World::initialize` performs: an `initialize()` call on each system in
iteration order up to and including the first one that fails, and nothing
after that. -/
def expectedInitEvents (l : List (Nat × System)) : List Event :=
  (l.takeWhile (fun p => p.2.initResult)).map (fun p => Event.init p.1 true) ++
    (match l.dropWhile (fun p => p.2.initResult) with
     | [] => []
     | p :: _ => [Event.init p.1 false])

/-- Check that a list of hook invocations consists solely of
`initialize()` calls (in particular, no `shutdown()` was invoked). -/
def initEventsOnly : List Event → Bool
  | [] => true
  | Event.init _ _ :: rest => initEventsOnly rest
  | _ => false

theorem initSystems_spec (l : List (Nat × System)) :
    (initSystems l).1 = l.all (fun p => p.2.initResult)
    ∧ (initSystems l).2.1.map Prod.fst = l.map Prod.fst
    ∧ (initSystems l).2.2 = expectedInitEvents l
    ∧ initEventsOnly (initSystems l).2.2 = true := by
  induction l with
  | nil => exact ⟨rfl, rfl, rfl, rfl⟩
  | cons p rest ih =>
    obtain ⟨k, s⟩ := p
    rcases hrec : initSystems rest with ⟨b, rest2, evs⟩
    rw [hrec] at ih
    have ih1 : b = rest.all (fun p => p.2.initResult) := ih.1
    have ih2 : rest2.map Prod.fst = rest.map Prod.fst := ih.2.1
    have ih3 : evs = expectedInitEvents rest := ih.2.2.1
    have ih4 : initEventsOnly evs = true := ih.2.2.2
    cases hb : s.initResult with
    | true =>
      have hstep : initSystems ((k, s) :: rest)
          = (b, (k, { s with initCount := s.initCount + 1 }) :: rest2,
             Event.init k true :: evs) := by
        simp [initSystems, sysInitialise, hb, hrec]
      rw [hstep]
      refine ⟨?_, ?_, ?_, ?_⟩
      · simp [List.all_cons, hb, ih1]
      · simp [List.map_cons, ih2]
      · rw [expectedInitEvents, List.takeWhile_cons_of_pos (by simp [hb]),
            List.dropWhile_cons_of_pos (by simp [hb])]
        simp only [List.map_cons, List.cons_append]
        rw [ih3, expectedInitEvents]
      · simp only [initEventsOnly]
        exact ih4
    | false =>
      have hstep : initSystems ((k, s) :: rest)
          = (false, (k, { s with initCount := s.initCount + 1 }) :: rest,
             [Event.init k false]) := by
        simp [initSystems, sysInitialise, hb]
      rw [hstep]
      refine ⟨?_, rfl, ?_, rfl⟩
      · simp [List.all_cons, hb]
      · rw [expectedInitEvents, List.takeWhile_cons_of_neg (by simp [hb]),
            List.dropWhile_cons_of_neg (by simp [hb])]
        simp

/-- C2: `World::initialize` calls `initialize()` on registered systems in
iteration order, stops at the first system whose `initialize()` returns
false, and then returns false without invoking `shutdown()` on (the event
log holds `initialize` calls only) or removing (the registry holds the
same type keys afterwards) the systems that already initialized
successfully; it returns true exactly when every registered system's
`initialize()` returns true. -/
theorem world_initialise_spec (w : World) :
    (w.initialise).1 = w.systems_.all (fun p => p.2.initResult)
    ∧ ((w.initialise).2.1).systems_.map Prod.fst = w.systems_.map Prod.fst
    ∧ (w.initialise).2.2 = expectedInitEvents w.systems_
    ∧ initEventsOnly (w.initialise).2.2 = true := by
  have h := initSystems_spec w.systems_
  rcases hrec : initSystems w.systems_ with ⟨b, l2, evs⟩
  rw [hrec] at h
  simp only [World.initialise, hrec]
  exact h

/-! ### Identifier allocation under interleaved add/remove (C4) -/

/-- The registry-mutating operations of the `System` interface. -/
inductive SysOp where
  | addE
  | removeE (id : EntityID)
  deriving DecidableEq

/-- Number of `add_entity` calls in an operation sequence. -/
def countAdds : List SysOp → Nat
  | [] => 0
  | SysOp.addE :: rest => countAdds rest + 1
  | SysOp.removeE _ :: rest => countAdds rest

/-- Run a sequence of `add_entity` / `remove_entity` calls against a
system, collecting in order the identifiers handed out by the
`add_entity` calls. -/
def collectIds : System → List SysOp → List EntityID
  | _, [] => []
  | s, SysOp.addE :: rest =>
    ((s.add_entity).1).id_ :: collectIds (s.add_entity).2 rest
  | s, SysOp.removeE id :: rest => collectIds (s.remove_entity id).2 rest

/-- Decidable check that a list of identifiers is strictly increasing. -/
def strictlyIncreasing : List EntityID → Bool
  | [] => true
  | [_] => true
  | a :: b :: rest => decide (a < b) && strictlyIncreasing (b :: rest)

theorem remove_entity_next (s : System) (id : EntityID) :
    ((s.remove_entity id).2).next_entity_id_ = s.next_entity_id_ := by
  unfold System.remove_entity
  cases mapFind id s.entities_ <;> rfl

theorem uint64Card_pos : 0 < uint64Card := by
  norm_num [uint64Card]

/-- Closed form of the handed-out identifiers: starting from counter
value `c < 2 ^ 64`, the `k`-th `add_entity` call of the sequence returns
`(c + k) % 2 ^ 64`, regardless of interleaved removals. -/
theorem collectIds_closed (ops : List SysOp) : ∀ (s : System),
    s.next_entity_id_ < uint64Card →
    collectIds s ops
      = (List.range (countAdds ops)).map
          (fun k => (s.next_entity_id_ + k) % uint64Card) := by
  induction ops with
  | nil => intro s hs; rfl
  | cons op rest ih =>
    intro s hs
    cases op with
    | addE =>
      have hnext : ((s.add_entity).2).next_entity_id_
          = (s.next_entity_id_ + 1) % uint64Card := rfl
      have hlt : ((s.add_entity).2).next_entity_id_ < uint64Card := by
        rw [hnext]; exact Nat.mod_lt _ uint64Card_pos
      have h2 := ih (s.add_entity).2 hlt
      rw [hnext] at h2
      have hid : ((s.add_entity).1).id_ = s.next_entity_id_ := rfl
      show ((s.add_entity).1).id_ :: collectIds (s.add_entity).2 rest = _
      rw [hid, h2, countAdds, List.range_succ_eq_map, List.map_cons, List.map_map]
      have hfun : (fun k => ((s.next_entity_id_ + 1) % uint64Card + k) % uint64Card)
          = ((fun k => (s.next_entity_id_ + k) % uint64Card) ∘ Nat.succ) := by
        funext k
        show ((s.next_entity_id_ + 1) % uint64Card + k) % uint64Card
            = (s.next_entity_id_ + (k + 1)) % uint64Card
        rw [Nat.mod_add_mod]
        congr 1
        omega
      rw [hfun]
      congr 1
      rw [Nat.add_zero, Nat.mod_eq_of_lt hs]
    | removeE id =>
      show collectIds (s.remove_entity id).2 rest = _
      rw [ih (s.remove_entity id).2 (by rw [remove_entity_next]; exact hs),
          remove_entity_next]
      rfl

theorem strictlyIncreasing_tail {a : EntityID} {l : List EntityID}
    (h : strictlyIncreasing (a :: l) = true) : strictlyIncreasing l = true := by
  cases l with
  | nil => rfl
  | cons b t =>
    simp only [strictlyIncreasing, Bool.and_eq_true] at h
    exact h.2

theorem strictlyIncreasing_suffix {l2 : List EntityID} : ∀ l1 : List EntityID,
    strictlyIncreasing (l1 ++ l2) = true → strictlyIncreasing l2 = true := by
  intro l1
  induction l1 with
  | nil => exact fun h => h
  | cons a t ih => exact fun h => ih (strictlyIncreasing_tail h)

theorem strictlyIncreasing_of_pairwise : ∀ {l : List EntityID},
    l.Pairwise (· < ·) → strictlyIncreasing l = true := by
  intro l h
  induction l with
  | nil => rfl
  | cons a t ih =>
    cases t with
    | nil => rfl
    | cons b r =>
      rcases List.pairwise_cons.mp h with ⟨ha, ht⟩
      simp only [strictlyIncreasing, Bool.and_eq_true, decide_eq_true_eq]
      exact ⟨ha b (List.mem_cons_self _ _), ih ht⟩

theorem countAdds_replicate (n : Nat) :
    countAdds (List.replicate n SysOp.addE) = n := by
  induction n with
  | zero => rfl
  | succ n ih => simp [List.replicate_succ, countAdds, ih]

/-- C4 counterexample: the claim fails at `N = 2 ^ 64` calls.  After
`2 ^ 64` `add_entity` calls on a fresh system the returned identifiers
are not strictly increasing: the 64-bit counter wraps, so the 2^64-th
identifier is 0 while its predecessor is 2^64 - 1. -/
theorem add_entity_ids_wrap_counterexample :
    strictlyIncreasing
      (collectIds (mkSystem true) (List.replicate (2 ^ 64) SysOp.addE)) = false := by
  have hM : uint64Card = 18446744073709551616 := by norm_num [uint64Card]
  have hMe : (2 : Nat) ^ 64 = 18446744073709551616 := by norm_num
  have h1 : collectIds (mkSystem true) (List.replicate (2 ^ 64) SysOp.addE)
      = (List.range (2 ^ 64)).map (fun k => (1 + k) % uint64Card) := by
    have h := collectIds_closed (List.replicate (2 ^ 64) SysOp.addE) (mkSystem true)
        (by rw [hM]; norm_num [mkSystem])
    rw [countAdds_replicate] at h
    exact h
  cases hSI : strictlyIncreasing
      (collectIds (mkSystem true) (List.replicate (2 ^ 64) SysOp.addE)) with
  | false => rfl
  | true =>
    exfalso
    rw [h1, hMe] at hSI
    have hsplit : List.range 18446744073709551616
        = (List.range 18446744073709551614 ++ [18446744073709551614])
          ++ [18446744073709551615] := by
      rw [← List.range_succ, ← List.range_succ]
    rw [hsplit, List.map_append, List.map_append] at hSI
    have h2 := strictlyIncreasing_suffix _ hSI
    rw [List.append_assoc] at hSI
    have h3 := strictlyIncreasing_suffix _ hSI
    simp only [List.map_cons, List.map_nil, List.singleton_append,
               strictlyIncreasing, Bool.and_eq_true, decide_eq_true_eq] at h3
    have ha : (1 + 18446744073709551614) % uint64Card = 18446744073709551615 := by
      rw [hM]
    have hb : (1 + 18446744073709551615) % uint64Card = 0 := by
      rw [hM]
    rw [ha, hb] at h3
    exact Nat.not_lt_zero _ h3.1

/-- C4 (amended): `add_entity` never fails: each call hands out an
identifier equal to the current counter value, advances the counter by
one (modulo 2^64), and stores a fresh empty entity under that identifier;
`remove_entity` never changes the counter; and as long as fewer than
`2 ^ 64` identifiers are allocated in total (so the 64-bit counter does
not wrap), any interleaving of `add_entity` and `remove_entity` calls on
a fresh system hands out the identifiers 1, 2, 3, ... in order: one per
call, distinct, strictly increasing, starting at 1, never reused. -/
theorem add_entity_ids_monotone (ops : List SysOp) (b : Bool)
    (h : countAdds ops < uint64Card) :
    collectIds (mkSystem b) ops
      = (List.range (countAdds ops)).map (fun k => k + 1)
    ∧ strictlyIncreasing (collectIds (mkSystem b) ops) = true
    ∧ (collectIds (mkSystem b) ops).Nodup
    ∧ (collectIds (mkSystem b) ops).length = countAdds ops
    ∧ (∀ (s : System) (id : EntityID),
        ((s.remove_entity id).2).next_entity_id_ = s.next_entity_id_)
    ∧ (∀ s : System,
        ((s.add_entity).1).id_ = s.next_entity_id_
        ∧ ((s.add_entity).2).next_entity_id_
            = (s.next_entity_id_ + 1) % uint64Card
        ∧ (s.has_entity s.next_entity_id_ = false →
            ((s.add_entity).2).get_entity s.next_entity_id_
              = some (mkEntity s.next_entity_id_))) := by
  have hclosed := collectIds_closed ops (mkSystem b)
      (by norm_num [mkSystem, uint64Card])
  have heq : collectIds (mkSystem b) ops
      = (List.range (countAdds ops)).map (fun k => k + 1) := by
    rw [hclosed]
    refine List.map_congr_left ?_
    intro k hk
    have hk2 : k < countAdds ops := List.mem_range.mp hk
    have hlt : (mkSystem b).next_entity_id_ + k < uint64Card := by
      show 1 + k < uint64Card
      rw [Nat.add_comm 1 k]
      exact Nat.lt_of_le_of_lt (Nat.succ_le_of_lt hk2) h
    show ((mkSystem b).next_entity_id_ + k) % uint64Card = k + 1
    rw [Nat.mod_eq_of_lt hlt]
    exact Nat.add_comm 1 k
  refine ⟨heq, ?_, ?_, ?_, remove_entity_next, ?_⟩
  · rw [heq]
    refine strictlyIncreasing_of_pairwise ?_
    rw [List.pairwise_map]
    refine List.Pairwise.imp ?_ (List.pairwise_lt_range _)
    intro x y hxy
    exact Nat.succ_lt_succ hxy
  · rw [heq]
    refine (List.nodup_range _).map ?_
    intro x y hxy
    exact Nat.succ_injective hxy
  · rw [heq, List.length_map, List.length_range]
  · intro s
    refine ⟨rfl, rfl, ?_⟩
    intro habs
    have hf : (mapFind s.next_entity_id_ s.entities_).isSome = false := habs
    show mapFind s.next_entity_id_
        (mapEmplace s.next_entity_id_ (mkEntity s.next_entity_id_) s.entities_) = _
    rw [mapEmplace, hf]
    simp [mapFind]

/-- Witness for `add_entity_ids_monotone` on a short interleaving of adds
and a removal. -/
theorem add_entity_ids_monotone_witness :
    countAdds [SysOp.addE, SysOp.removeE 1, SysOp.addE, SysOp.addE] < uint64Card
    ∧ collectIds (mkSystem true) [SysOp.addE, SysOp.removeE 1, SysOp.addE, SysOp.addE]
        = [1, 2, 3]
    ∧ strictlyIncreasing
        (collectIds (mkSystem true) [SysOp.addE, SysOp.removeE 1, SysOp.addE, SysOp.addE])
        = true := by
  have hlt : countAdds [SysOp.addE, SysOp.removeE 1, SysOp.addE, SysOp.addE]
      < uint64Card := by
    norm_num [countAdds, uint64Card]
  have h := add_entity_ids_monotone
      [SysOp.addE, SysOp.removeE 1, SysOp.addE, SysOp.addE] true hlt
  refine ⟨hlt, ?_, h.2.1⟩
  rw [h.1]
  rfl

end GameEcs
